import Mathlib

/-!
Verification of the orchestration core of the seamless-expressive demo
(`app.py`): audio preprocessing, filter-bank normalization, the language
name/code maps, and the request handler `run`, shallowly embedded in Lean.

External collaborators (torchaudio resampling, the fairseq2 audio decoder
and fbank converter, the translator, the vocoder) are abstract functions
collected in an environment record `Env`; the glue code of `app.py` is
translated as total Lean functions over that environment plus an explicit
file-system state.
-/

/-- A sample is modelled as a rational number (the code works with float
tensors; the claims under verification never depend on rounding). A
waveform is channels x samples. -/
abbrev Waveform := List (List Rat)

/-- An audio file's decoded content: waveform plus sample rate, as returned
by `torchaudio.load` / consumed by `torchaudio.save`. -/
structure AudioData where
  waveform : Waveform
  sampleRate : Nat
deriving Repr, DecidableEq

/-- Content of a file on disk: either audio that the loaders can decode, or
malformed/empty bytes on which `torchaudio.load` and the byte decoder fail. -/
inductive FileContent where
  | wave (a : AudioData)
  | malformed
deriving Repr, DecidableEq

/-- The file system seen by the handler: a partial map from paths to file
contents (`none` = no such file). -/
def FS : Type := String → Option FileContent

/-- Writing a file: `torchaudio.save(path, ...)` and the temporary-file
write both overwrite/create the file at the given path, leaving every
other path untouched. -/
def FS.update (fs : FS) (p : String) (c : FileContent) : FS :=
  fun q => if q = p then some c else fs q

theorem FS.update_same (fs : FS) (p : String) (c : FileContent) :
    fs.update p c p = some c := by
  simp [FS.update]

theorem FS.update_other (fs : FS) (p q : String) (c : FileContent) (h : q ≠ p) :
    fs.update p c q = fs q := by
  simp [FS.update, h]

/-- Constant `AUDIO_SAMPLE_RATE = 44100` (app.py line 129). -/
def AUDIO_SAMPLE_RATE : Nat := 44100

/-- Constant `MAX_INPUT_AUDIO_LENGTH = 60` seconds (app.py line 130). -/
def MAX_INPUT_AUDIO_LENGTH : Nat := 60

/-- Constant `max_length = int(MAX_INPUT_AUDIO_LENGTH * AUDIO_SAMPLE_RATE)`
(app.py line 136). -/
def max_length : Nat := MAX_INPUT_AUDIO_LENGTH * AUDIO_SAMPLE_RATE

/-- Tensor width `new_arr.shape[1]`: the per-channel sample count of a (rectangular)
channels x samples tensor. -/
def numSamples (arr : Waveform) : Nat := (arr.headD []).length

/-- The tensor slice `new_arr[:, :max_length]`: every channel keeps its
first `n` samples. -/
def sliceSamples (arr : Waveform) (n : Nat) : Waveform :=
  arr.map (fun ch => ch.take n)

/-- A channels x samples tensor is rectangular: every channel has the
common length `numSamples arr` (true of every `torch` 2-D tensor). -/
def Rectangular (arr : Waveform) : Prop :=
  ∀ ch ∈ arr, ch.length = numSamples arr

/-- Result of preprocessing: the audio written back to disk, and whether
`gr.Warning` was emitted. -/
structure PreprocessResult where
  saved : AudioData
  warned : Bool
deriving Repr, DecidableEq

/-- The pure core of `preprocess_audio` (app.py lines 133-140), applied to
already-loaded audio: resample to `AUDIO_SAMPLE_RATE`, slice to the first
`max_length` samples per channel (with a warning) when the resampled length
exceeds `max_length`, and record what `torchaudio.save` writes (always at
`AUDIO_SAMPLE_RATE`). `resample` abstracts
`torchaudio.functional.resample(arr, orig_freq, new_freq)`. -/
def preprocessCore (resample : Waveform → Nat → Nat → Waveform)
    (a : AudioData) : PreprocessResult :=
  let new_arr := resample a.waveform a.sampleRate AUDIO_SAMPLE_RATE
  if numSamples new_arr > max_length then
    { saved := { waveform := sliceSamples new_arr max_length
                 sampleRate := AUDIO_SAMPLE_RATE }
      warned := true }
  else
    { saved := { waveform := new_arr, sampleRate := AUDIO_SAMPLE_RATE }
      warned := false }

/-- Function `preprocess_audio(input_audio_path)` (app.py lines 133-140) as a
file-system transformer: load the file at the path (failing, like
`torchaudio.load`, when it is missing or malformed), run the pure core, and
overwrite the same path in place. Returns the new file system and whether a
warning was emitted; `none` models the uncaught load error. -/
def preprocess_audio (resample : Waveform → Nat → Nat → Waveform)
    (fs : FS) (input_audio_path : String) : Option (FS × Bool) :=
  match fs input_audio_path with
  | some (FileContent.wave a) =>
    let r := preprocessCore resample a
    some (fs.update input_audio_path (FileContent.wave r.saved), r.warned)
  | _ => none

/-- Output of `convert_to_fbank` (the external `WaveformToFbankConverter`,
app.py lines 108-115): the decoded example's mapping, now also holding an
80-mel-bin filter-bank matrix (frames x mel bins, time along dim 0). -/
structure FbankExample where
  waveform : Waveform
  sample_rate : Nat
  fbank : List (List Rat)
deriving Repr, DecidableEq

/-- Output of `normalize_fbank`: the same mapping with the key `fbank`
now holding the per-utterance standardized copy and the distinct key
`gcmvn_fbank` holding the globally standardized copy. -/
structure NormalizedExample where
  waveform : Waveform
  sample_rate : Nat
  fbank : List (List Rat)
  gcmvn_fbank : List (List Rat)
deriving Repr, DecidableEq

/-- Elementwise `fbank.subtract(mean).divide(std)` with the usual torch
broadcast of the per-mel-bin vectors `mean` and `std` across rows
(time frames). -/
def subDivRows (rows : List (List Rat)) (mean std : List Rat) :
    List (List Rat) :=
  rows.map (fun row =>
    (row.zip (mean.zip std)).map (fun p => (p.1 - p.2.1) / p.2.2))

/-- Per-mel-bin statistics `torch.std_mean(fbank, dim=0)`: one
(std, mean) pair per column of the frames x mel-bins matrix. The scalar
reduction `std_mean` of one column is abstract (its square root lives in
floating point); the dim-0 structure is concrete. -/
def stdMeanDim0 (std_mean : List Rat → Rat × Rat)
    (fbank : List (List Rat)) : List Rat × List Rat :=
  let stats := fbank.transpose.map std_mean
  (stats.map Prod.fst, stats.map Prod.snd)

/-- Function `normalize_fbank` (app.py lines 118-123): standardize `fbank`
per-utterance along the time axis, and store under the distinct key
`gcmvn_fbank` the copy standardized with the global statistics
`gcmvn_mean` / `gcmvn_std` loaded once at startup. Both variants are
computed from the input's raw `fbank`. -/
def normalize_fbank (std_mean : List Rat → Rat × Rat)
    (gcmvn_mean gcmvn_std : List Rat) (data : FbankExample) :
    NormalizedExample :=
  let fbank := data.fbank
  let std := (stdMeanDim0 std_mean fbank).1
  let mean := (stdMeanDim0 std_mean fbank).2
  { waveform := data.waveform
    sample_rate := data.sample_rate
    fbank := subDivRows fbank mean std
    gcmvn_fbank := subDivRows fbank gcmvn_mean gcmvn_std }

/-- The collated single-example batch (app.py line 154; `Collater` with
`pad_value=0, pad_to_multiple=1` on a batch of one wraps each tensor in a
one-element batch without changing it). -/
structure CollatedBatch where
  fbank : List (List (List Rat))
  gcmvn_fbank : List (List (List Rat))
deriving Repr, DecidableEq

/-- Function `collate(example)` for the single-example batch of this app. -/
def collate (e : NormalizedExample) : CollatedBatch :=
  { fbank := [e.fbank], gcmvn_fbank := [e.gcmvn_fbank] }

/-- Modelled from the spec: `LANGUAGE_CODE_TO_NAME` is imported from
`utils.py`, which is not among the provided sources. The spec describes a
fixed bidirectional code/name map behind the six display names offered by
the interface (English, French, German, Italian, Mandarin Chinese,
Spanish), each display name having exactly one code understood by the
model. Modelled as an association list of (code, name) pairs. -/
def LANGUAGE_CODE_TO_NAME : List (String × String) :=
  [("eng", "English"), ("fra", "French"), ("deu", "German"),
   ("ita", "Italian"), ("cmn", "Mandarin Chinese"), ("spa", "Spanish")]

/-- Map `LANGUAGE_NAME_TO_CODE`, the python dict comprehension inverting `LANGUAGE_CODE_TO_NAME`
(app.py line 66): the inverted association list. -/
def LANGUAGE_NAME_TO_CODE : List (String × String) :=
  LANGUAGE_CODE_TO_NAME.map (fun p => (p.2, p.1))

/-- Python dict lookup `m[k]` over an association list: `some` the value
when the key is present, `none` modelling the uncaught `KeyError`. -/
def dictLookup (m : List (String × String)) (k : String) : Option String :=
  (m.find? (fun p => p.1 = k)).map Prod.snd

/-- List `TARGET_LANGUAGE_NAMES` (app.py lines 183-190): the six display names
offered by the dropdown. -/
def TARGET_LANGUAGE_NAMES : List String :=
  ["English", "French", "German", "Italian", "Mandarin Chinese", "Spanish"]

/-- Record `SequenceGeneratorOptions(beam_size=..., soft_max_seq_len=...)`
(app.py lines 95-97): the two generation settings this app sets. -/
structure SequenceGeneratorOptions where
  beam_size : Nat
  soft_max_seq_len : Option (Nat × Nat)
deriving Repr, DecidableEq

/-- Value `text_generation_opts = SequenceGeneratorOptions(beam_size=5,
soft_max_seq_len=None)` (app.py lines 95-96). -/
def text_generation_opts : SequenceGeneratorOptions :=
  { beam_size := 5, soft_max_seq_len := none }

/-- Value `unit_generation_opts = SequenceGeneratorOptions(beam_size=5,
soft_max_seq_len=(25, 50))` (app.py line 97). -/
def unit_generation_opts : SequenceGeneratorOptions :=
  { beam_size := 5, soft_max_seq_len := some (25, 50) }

/-- The argument record of the single `translator.predict` call
(app.py lines 157-167), one field per keyword of that call. -/
structure TranslatorCall where
  input : List (List (List Rat))
  task : String
  tgt_lang : String
  src_lang : Option String
  text_generation_opts : SequenceGeneratorOptions
  unit_generation_opts : SequenceGeneratorOptions
  unit_generation_ngram_filtering : Bool
  duration_factor : Rat
  prosody_encoder_input : List (List (List Rat))

/-- Discrete speech units returned by the translator (batch of unit
sequences), consumed opaquely by the vocoder. -/
abbrev SpeechUnits := List (List Int)

/-- Record `BatchedSpeechOutput` of `pretssel_generator.predict`: a batch of
waveform tensors plus the sample rate the synthesizer reports. -/
structure SpeechOutput where
  audio_wavs : List (List Waveform)
  sample_rate : Nat

/-- The external collaborators and startup-loaded state of `app.py`,
abstracted: torchaudio's resampler, the fairseq2 audio byte decoder
(`none` = decode error), the fbank converter's matrix, the scalar
`torch.std_mean` reduction, the gcmvn statistics, `translator.predict`
(`none` = internal failure), `pretssel_generator.predict` (units,
tgt_lang, prosody input; `none` = internal failure), and the name
`tempfile.NamedTemporaryFile` hands out. -/
structure Env where
  resample : Waveform → Nat → Nat → Waveform
  decode_audio : AudioData → Option AudioData
  extract_fbank : AudioData → List (List Rat)
  std_mean : List Rat → Rat × Rat
  gcmvn_mean : List Rat
  gcmvn_std : List Rat
  translate : TranslatorCall → Option (List String × SpeechUnits)
  synthesize : SpeechUnits → String → List (List (List Rat)) → Option SpeechOutput
  tmpName : String

/-- Function `convert_to_fbank(example)` (app.py line 152): the external converter
keeps the decoded waveform and sample rate and adds the fbank matrix. -/
def convert_to_fbank (env : Env) (a : AudioData) : FbankExample :=
  { waveform := a.waveform, sample_rate := a.sampleRate
    fbank := env.extract_fbank a }

/-- The uncaught Python exceptions a call of `run` can end in. -/
inductive RunError where
  | unknownLanguage   -- KeyError from LANGUAGE_NAME_TO_CODE lookup
  | loadError         -- torchaudio.load failed inside preprocess_audio
  | readError         -- reading the just-saved file back failed
  | decodeError       -- decode_audio failed on the file bytes
  | translateError    -- translator.predict raised
  | synthError        -- pretssel_generator.predict raised
  | wavIndexError     -- audio_wavs[0][0] out of range
  | textIndexError    -- text_output[0] out of range
deriving Repr, DecidableEq

/-- Feature extraction and batching (app.py lines 152-154):
`collate(normalize_fbank(convert_to_fbank(example)))`. -/
def pipelineBatch (env : Env) (example0 : AudioData) : CollatedBatch :=
  collate (normalize_fbank env.std_mean env.gcmvn_mean env.gcmvn_std
    ( convert_to_fbank env example0))

/-- The argument record of the `translator.predict` call exactly as built
at app.py lines 157-167 for a decoded example and target language code. -/
def translatorCallOf (env : Env) (target_language_code : String)
    (example0 : AudioData) : TranslatorCall :=
  { input := (pipelineBatch env example0).fbank
    task := "S2ST"
    tgt_lang := target_language_code
    src_lang := none
    text_generation_opts := text_generation_opts
    unit_generation_opts := unit_generation_opts
    unit_generation_ngram_filtering := false
    duration_factor := 1
    prosody_encoder_input := (pipelineBatch env example0).gcmvn_fbank }

/-- The stages of `run` after preprocessing (app.py lines 148-180): decode
the saved file's bytes, extract and normalize features, translate,
synthesize, write the temporary `.wav`, and return (path, text). The file
system is threaded so every outcome reports the resulting disk state. -/
def runPipeline (env : Env) (target_language_code : String)
    (saved : AudioData) (fs1 : FS) :
    Except (RunError × FS) (FS × String × String) :=
  match env.decode_audio saved with
  | none => .error (.decodeError, fs1)
  | some example0 =>
    let prosody_encoder_input := (pipelineBatch env example0).gcmvn_fbank
    match env.translate (translatorCallOf env target_language_code example0) with
    | none => .error (.translateError, fs1)
    | some (text_output, units) =>
      match env.synthesize units target_language_code
        prosody_encoder_input with
      | none => .error (.synthError, fs1)
      | some speech_output =>
        match (speech_output.audio_wavs.headD []).head? with
        | none => .error (.wavIndexError, fs1)
        | some wav =>
          let fs2 := fs1.update env.tmpName
            (FileContent.wave { waveform := wav
                                sampleRate := speech_output.sample_rate })
          match text_output.head? with
          | none => .error (.textIndexError, fs2)
          | some t => .ok (fs2, env.tmpName, t)

/-- Function `run(input_audio_path, target_language)` (app.py lines 143-180):
resolve the display name (KeyError if absent), preprocess the input file
in place, then run the remaining pipeline stages. -/
def run (env : Env) (fs : FS)
    (input_audio_path target_language : String) :
    Except (RunError × FS) (FS × String × String) :=
  match dictLookup LANGUAGE_NAME_TO_CODE target_language with
  | none => .error (.unknownLanguage, fs)
  | some target_language_code =>
    match preprocess_audio env.resample fs input_audio_path with
    | none => .error (.loadError, fs)
    | some (fs1, _warned) =>
      match fs1 input_audio_path with
      | some (FileContent.wave saved) =>
        runPipeline env target_language_code saved fs1
      | _ => .error (.readError, fs1)

/-! ## Helper lemmas -/

theorem preprocessCore_of_le (resample : Waveform → Nat → Nat → Waveform)
    (a : AudioData)
    (h : numSamples (resample a.waveform a.sampleRate AUDIO_SAMPLE_RATE) ≤
      max_length) :
    preprocessCore resample a =
      { saved := { waveform := resample a.waveform a.sampleRate AUDIO_SAMPLE_RATE
                   sampleRate := AUDIO_SAMPLE_RATE }
        warned := false } := by
  simp [preprocessCore, not_lt.mpr h]

theorem preprocessCore_of_gt (resample : Waveform → Nat → Nat → Waveform)
    (a : AudioData)
    (h : max_length <
      numSamples (resample a.waveform a.sampleRate AUDIO_SAMPLE_RATE)) :
    preprocessCore resample a =
      { saved := { waveform := sliceSamples
                     (resample a.waveform a.sampleRate AUDIO_SAMPLE_RATE)
                     max_length
                   sampleRate := AUDIO_SAMPLE_RATE }
        warned := true } := by
  simp [preprocessCore, h]

theorem preprocessCore_sampleRate (resample : Waveform → Nat → Nat → Waveform)
    (a : AudioData) :
    (preprocessCore resample a).saved.sampleRate = AUDIO_SAMPLE_RATE := by
  simp only [preprocessCore]
  split <;> rfl

theorem numSamples_slice_le (arr : Waveform) (n : Nat) :
    numSamples (sliceSamples arr n) ≤ n := by
  cases arr with
  | nil => simp [sliceSamples, numSamples]
  | cons c rest => simp [sliceSamples, numSamples]

theorem preprocessCore_le_max (resample : Waveform → Nat → Nat → Waveform)
    (a : AudioData) :
    numSamples (preprocessCore resample a).saved.waveform ≤ max_length := by
  simp only [preprocessCore]
  split
  · exact numSamples_slice_le _ _
  · next h => exact not_lt.mp h

theorem preprocessCore_idem (resample : Waveform → Nat → Nat → Waveform)
    (a : AudioData)
    (hres : ∀ arr sr, resample arr sr sr = arr) :
    preprocessCore resample ((preprocessCore resample a).saved) =
      { saved := (preprocessCore resample a).saved, warned := false } := by
  have hle := preprocessCore_le_max resample a
  have hsr := preprocessCore_sampleRate resample a
  cases hsv : (preprocessCore resample a).saved with
  | mk w sr =>
    rw [hsv] at hle hsr
    simp only at hle hsr
    subst hsr
    rw [preprocessCore_of_le]
    · rw [hres]
    · rw [hres]
      exact hle

theorem runPipeline_error_keeps (env : Env) (code : String)
    (saved : AudioData) (fs1 : FS) (e : RunError) (fs' : FS) (q : String)
    (hq : q ≠ env.tmpName)
    (h : runPipeline env code saved fs1 = .error (e, fs')) :
    fs' q = fs1 q := by
  unfold runPipeline at h
  cases hd : env.decode_audio saved with
  | none =>
    rw [hd] at h
    simp only [Except.error.injEq, Prod.mk.injEq] at h
    rw [← h.2]
  | some example0 =>
    rw [hd] at h
    dsimp only at h
    cases ht : env.translate (translatorCallOf env code example0) with
    | none =>
      rw [ht] at h
      simp only [Except.error.injEq, Prod.mk.injEq] at h
      rw [← h.2]
    | some p =>
      obtain ⟨text_output, units⟩ := p
      rw [ht] at h
      dsimp only at h
      cases hs : env.synthesize units code
          (pipelineBatch env example0).gcmvn_fbank with
      | none =>
        rw [hs] at h
        simp only [Except.error.injEq, Prod.mk.injEq] at h
        rw [← h.2]
      | some speech_output =>
        rw [hs] at h
        dsimp only at h
        cases hw : (speech_output.audio_wavs.headD []).head? with
        | none =>
          rw [hw] at h
          simp only [Except.error.injEq, Prod.mk.injEq] at h
          rw [← h.2]
        | some wav =>
          rw [hw] at h
          dsimp only at h
          cases htx : text_output.head? with
          | none =>
            rw [htx] at h
            simp only [Except.error.injEq, Prod.mk.injEq] at h
            rw [← h.2]
            exact FS.update_other fs1 env.tmpName q _ hq
          | some t =>
            rw [htx] at h
            exact absurd h (by simp)

theorem runPipeline_ok_shape (env : Env) (code : String) (saved : AudioData)
    (fsA fsA' : FS) (n t : String)
    (h : runPipeline env code saved fsA = .ok (fsA', n, t)) :
    ∃ example0 text_output units speech_output wav,
      env.decode_audio saved = some example0 ∧
      env.translate (translatorCallOf env code example0) =
        some (text_output, units) ∧
      env.synthesize units code (pipelineBatch env example0).gcmvn_fbank =
        some speech_output ∧
      (speech_output.audio_wavs.headD []).head? = some wav ∧
      text_output.head? = some t ∧
      n = env.tmpName ∧
      fsA' = fsA.update env.tmpName (FileContent.wave
        { waveform := wav, sampleRate := speech_output.sample_rate }) ∧
      ∀ fsB : FS, runPipeline env code saved fsB =
        .ok (fsB.update env.tmpName (FileContent.wave
          { waveform := wav, sampleRate := speech_output.sample_rate }),
          env.tmpName, t) := by
  unfold runPipeline at h
  cases hd : env.decode_audio saved with
  | none => rw [hd] at h; exact absurd h (by simp)
  | some example0 =>
    rw [hd] at h
    dsimp only at h
    cases ht : env.translate (translatorCallOf env code example0) with
    | none => rw [ht] at h; exact absurd h (by simp)
    | some p =>
      obtain ⟨text_output, units⟩ := p
      rw [ht] at h
      dsimp only at h
      cases hs : env.synthesize units code
          (pipelineBatch env example0).gcmvn_fbank with
      | none => rw [hs] at h; exact absurd h (by simp)
      | some speech_output =>
        rw [hs] at h
        dsimp only at h
        cases hw : (speech_output.audio_wavs.headD []).head? with
        | none => rw [hw] at h; exact absurd h (by simp)
        | some wav =>
          rw [hw] at h
          dsimp only at h
          cases htx : text_output.head? with
          | none => rw [htx] at h; exact absurd h (by simp)
          | some t0 =>
            rw [htx] at h
            simp only [Except.ok.injEq, Prod.mk.injEq] at h
            obtain ⟨hfs, hn, htt⟩ := h
            subst htt
            refine ⟨example0, text_output, units, speech_output, wav,
              rfl, ht, hs, hw, htx, hn.symm, hfs.symm, ?_⟩
            intro fsB
            simp only [runPipeline, hd, ht, hs, hw, htx]

/-! ## Claim theorems -/

/-- C5: the display-name-to-code map and its inverse are total bijections
over the six target-language names offered by the interface: every offered
display name matches exactly one entry of `LANGUAGE_NAME_TO_CODE`,
inverting `LANGUAGE_CODE_TO_NAME` loses no entry (its values are pairwise
distinct and the inverse has the same number of entries), and
name-to-code-to-name round-trips to the identity on the six names. -/
theorem language_maps_bijective :
    (∀ name ∈ TARGET_LANGUAGE_NAMES,
      (LANGUAGE_NAME_TO_CODE.filter (fun p => p.1 == name)).length = 1) ∧
    LANGUAGE_NAME_TO_CODE.length = LANGUAGE_CODE_TO_NAME.length ∧
    (LANGUAGE_CODE_TO_NAME.map Prod.snd).Nodup ∧
    (∀ name ∈ TARGET_LANGUAGE_NAMES,
      ( dictLookup LANGUAGE_NAME_TO_CODE name).bind
        (fun c => dictLookup LANGUAGE_CODE_TO_NAME c) = some name) := by
  decide

/-- C10: when the resampled input has at most `int(60 * 44100)` samples
per channel (60 seconds or shorter), `preprocess_audio`'s core performs no
truncation and emits no warning: the saved audio is exactly the resampled
waveform at 44100 Hz with `warned = false`; contrapositively, the
truncation branch and its warning require the strict inequality
`numSamples > max_length`. -/
theorem preprocess_no_truncation_at_limit
    (resample : Waveform → Nat → Nat → Waveform) (a : AudioData)
    (h : numSamples (resample a.waveform a.sampleRate AUDIO_SAMPLE_RATE) ≤
      max_length) :
    preprocessCore resample a =
      { saved := { waveform := resample a.waveform a.sampleRate AUDIO_SAMPLE_RATE
                   sampleRate := AUDIO_SAMPLE_RATE }
        warned := false } :=
  preprocessCore_of_le resample a h

/-- A concrete resampler hitting exactly the 60-second boundary:
2646000 samples in one channel. -/
def wResampleEdge : Waveform → Nat → Nat → Waveform :=
  fun _ _ _ => [List.replicate max_length 0]

/-- A small concrete input audio file content. -/
def wAudio : AudioData := { waveform := [[0]], sampleRate := 16000 }

theorem preprocess_no_truncation_at_limit_witness :
    numSamples (wResampleEdge wAudio.waveform wAudio.sampleRate
      AUDIO_SAMPLE_RATE) ≤ max_length ∧
    preprocessCore wResampleEdge wAudio =
      { saved := { waveform := wResampleEdge wAudio.waveform
                     wAudio.sampleRate AUDIO_SAMPLE_RATE
                   sampleRate := AUDIO_SAMPLE_RATE }
        warned := false } := by
  have h : numSamples (wResampleEdge wAudio.waveform wAudio.sampleRate
      AUDIO_SAMPLE_RATE) ≤ max_length := by
    simp only [wResampleEdge, numSamples, List.headD_cons,
      List.length_replicate, le_refl]
  exact ⟨h, preprocess_no_truncation_at_limit wResampleEdge wAudio h⟩

/-- C2: for an input file whose resampled waveform is under 60 seconds
(fewer than `int(60 * 44100)` samples per channel), `preprocess_audio`
drops no samples after resampling, saves at exactly 44100 Hz, overwrites
the original file in place (every other path untouched), and emits no
warning. -/
theorem preprocess_short_input
    (resample : Waveform → Nat → Nat → Waveform) (fs : FS) (path : String)
    (a : AudioData)
    (ha : fs path = some (FileContent.wave a))
    (hshort : numSamples (resample a.waveform a.sampleRate AUDIO_SAMPLE_RATE) <
      max_length) :
    ∃ fs', preprocess_audio resample fs path = some (fs', false) ∧
      fs' path = some (FileContent.wave
        { waveform := resample a.waveform a.sampleRate AUDIO_SAMPLE_RATE
          sampleRate := AUDIO_SAMPLE_RATE }) ∧
      ∀ q, q ≠ path → fs' q = fs q := by
  have hc := preprocessCore_of_le resample a (le_of_lt hshort)
  refine ⟨fs.update path (FileContent.wave
    { waveform := resample a.waveform a.sampleRate AUDIO_SAMPLE_RATE
      sampleRate := AUDIO_SAMPLE_RATE }), ?_, ?_, ?_⟩
  · simp only [ preprocess_audio, ha, hc]
  · exact FS.update_same fs path _
  · intro q hq
    exact FS.update_other fs path q _ hq

/-- Identity resampler for small witnesses. -/
def wResampleId : Waveform → Nat → Nat → Waveform := fun arr _ _ => arr

/-- Witness file system: one decodable audio file at "input.wav". -/
def wFsA : FS :=
  fun p => if p = "input.wav" then some (FileContent.wave wAudio) else none

theorem preprocess_short_input_witness :
    wFsA "input.wav" = some (FileContent.wave wAudio) ∧
    numSamples (wResampleId wAudio.waveform wAudio.sampleRate
      AUDIO_SAMPLE_RATE) < max_length ∧
    ∃ fs', preprocess_audio wResampleId wFsA "input.wav" = some (fs', false) ∧
      fs' "input.wav" = some (FileContent.wave
        { waveform := wResampleId wAudio.waveform wAudio.sampleRate
            AUDIO_SAMPLE_RATE
          sampleRate := AUDIO_SAMPLE_RATE }) ∧
      ∀ q, q ≠ "input.wav" → fs' q = wFsA q := by
  have ha : wFsA "input.wav" = some (FileContent.wave wAudio) := rfl
  have hshort : numSamples (wResampleId wAudio.waveform wAudio.sampleRate
      AUDIO_SAMPLE_RATE) < max_length := by
    simp only [wResampleId, wAudio, numSamples, List.headD_cons,
      List.length_cons, List.length_nil, max_length,
      MAX_INPUT_AUDIO_LENGTH, AUDIO_SAMPLE_RATE]
    omega
  exact ⟨ha, hshort,
    preprocess_short_input wResampleId wFsA "input.wav" wAudio ha hshort⟩

/-- C1: for an input file whose resampled waveform strictly exceeds
`int(60 * 44100) = 2646000` samples per channel, `preprocess_audio`
truncates every channel to exactly its first 2646000 samples, emits the
warning, and overwrites the input file in place at 44100 Hz, leaving every
other path untouched. -/
theorem preprocess_long_input
    (resample : Waveform → Nat → Nat → Waveform) (fs : FS) (path : String)
    (a : AudioData)
    (ha : fs path = some (FileContent.wave a))
    (hrect : Rectangular (resample a.waveform a.sampleRate AUDIO_SAMPLE_RATE))
    (hlong : max_length <
      numSamples (resample a.waveform a.sampleRate AUDIO_SAMPLE_RATE)) :
    max_length = 2646000 ∧
    ∃ fs', preprocess_audio resample fs path = some (fs', true) ∧
      fs' path = some (FileContent.wave
        { waveform := sliceSamples
            (resample a.waveform a.sampleRate AUDIO_SAMPLE_RATE) max_length
          sampleRate := AUDIO_SAMPLE_RATE }) ∧
      (∀ ch ∈ sliceSamples
          (resample a.waveform a.sampleRate AUDIO_SAMPLE_RATE) max_length,
        ch.length = 2646000 ∧
        ∃ orig ∈ resample a.waveform a.sampleRate AUDIO_SAMPLE_RATE,
          ch = orig.take 2646000) ∧
      ∀ q, q ≠ path → fs' q = fs q := by
  have hml : max_length = 2646000 := by decide
  have hc := preprocessCore_of_gt resample a hlong
  refine ⟨hml, fs.update path (FileContent.wave
    { waveform := sliceSamples
        (resample a.waveform a.sampleRate AUDIO_SAMPLE_RATE) max_length
      sampleRate := AUDIO_SAMPLE_RATE }), ?_, ?_, ?_, ?_⟩
  · simp only [ preprocess_audio, ha, hc]
  · exact FS.update_same fs path _
  · intro ch hch
    simp only [sliceSamples, List.mem_map] at hch
    obtain ⟨orig, horig, rfl⟩ := hch
    constructor
    · rw [List.length_take, hrect orig horig, ← hml]
      exact min_eq_left (le_of_lt hlong)
    · exact ⟨orig, horig, by rw [hml]⟩
  · intro q hq
    exact FS.update_other fs path q _ hq

/-- A concrete resampler producing one sample over the 60-second limit. -/
def wResampleLong : Waveform → Nat → Nat → Waveform :=
  fun _ _ _ => [List.replicate (max_length + 1) 0]

theorem preprocess_long_input_witness :
    wFsA "input.wav" = some (FileContent.wave wAudio) ∧
    Rectangular (wResampleLong wAudio.waveform wAudio.sampleRate
      AUDIO_SAMPLE_RATE) ∧
    max_length < numSamples (wResampleLong wAudio.waveform wAudio.sampleRate
      AUDIO_SAMPLE_RATE) ∧
    (max_length = 2646000 ∧
     ∃ fs', preprocess_audio wResampleLong wFsA "input.wav" =
        some (fs', true) ∧
      fs' "input.wav" = some (FileContent.wave
        { waveform := sliceSamples
            (wResampleLong wAudio.waveform wAudio.sampleRate
              AUDIO_SAMPLE_RATE) max_length
          sampleRate := AUDIO_SAMPLE_RATE }) ∧
      (∀ ch ∈ sliceSamples
          (wResampleLong wAudio.waveform wAudio.sampleRate AUDIO_SAMPLE_RATE)
          max_length,
        ch.length = 2646000 ∧
        ∃ orig ∈ wResampleLong wAudio.waveform wAudio.sampleRate
            AUDIO_SAMPLE_RATE,
          ch = orig.take 2646000) ∧
      ∀ q, q ≠ "input.wav" → fs' q = wFsA q) := by
  have ha : wFsA "input.wav" = some (FileContent.wave wAudio) := rfl
  have hrect : Rectangular (wResampleLong wAudio.waveform wAudio.sampleRate
      AUDIO_SAMPLE_RATE) := by
    intro ch hch
    simp only [wResampleLong, List.mem_singleton] at hch
    subst hch
    rfl
  have hlong : max_length < numSamples (wResampleLong wAudio.waveform
      wAudio.sampleRate AUDIO_SAMPLE_RATE) := by
    simp only [wResampleLong, numSamples, List.headD_cons,
      List.length_replicate]
    omega
  exact ⟨ha, hrect, hlong,
    preprocess_long_input wResampleLong wFsA "input.wav" wAudio ha hrect hlong⟩

/-- C3: `normalize_fbank` retains both standardized variants under the
distinct keys `fbank` and `gcmvn_fbank`: the `fbank` field holds the
per-utterance standardized copy (the raw filter-bank minus its per-column
mean divided by its per-column standard deviation, statistics taken along
the time axis, dim 0), the `gcmvn_fbank` field holds the copy standardized
with the fixed global statistics; both are computed from the same input
filter-bank, both keep its frame count, and their frame counts agree. The
rest of the mapping (waveform, sample rate) passes through unchanged. -/
theorem normalize_fbank_two_variants (std_mean : List Rat → Rat × Rat)
    (gcmvn_mean gcmvn_std : List Rat) (d : FbankExample) :
    (normalize_fbank std_mean gcmvn_mean gcmvn_std d).fbank =
      subDivRows d.fbank (stdMeanDim0 std_mean d.fbank).2
        (stdMeanDim0 std_mean d.fbank).1 ∧
    (normalize_fbank std_mean gcmvn_mean gcmvn_std d).gcmvn_fbank =
      subDivRows d.fbank gcmvn_mean gcmvn_std ∧
    (normalize_fbank std_mean gcmvn_mean gcmvn_std d).fbank.length =
      d.fbank.length ∧
    (normalize_fbank std_mean gcmvn_mean gcmvn_std d).gcmvn_fbank.length =
      d.fbank.length ∧
    (normalize_fbank std_mean gcmvn_mean gcmvn_std d).fbank.length =
      (normalize_fbank std_mean gcmvn_mean gcmvn_std d).gcmvn_fbank.length ∧
    (normalize_fbank std_mean gcmvn_mean gcmvn_std d).waveform =
      d.waveform ∧
    (normalize_fbank std_mean gcmvn_mean gcmvn_std d).sample_rate =
      d.sample_rate := by
  refine ⟨rfl, rfl, ?_, ?_, ?_, rfl, rfl⟩ <;>
    simp [normalize_fbank, subDivRows]

/-- C6: when the target-language display name is not a key of
`LANGUAGE_NAME_TO_CODE`, `run` fails with the (uncaught) lookup error
before any audio processing: the resulting file system is exactly the
input file system, so the input file is not modified. -/
theorem run_unknown_language (env : Env) (fs : FS)
    (input_audio_path target_language : String)
    (h : dictLookup LANGUAGE_NAME_TO_CODE target_language = none) :
    run env fs input_audio_path target_language =
      .error (.unknownLanguage, fs) := by
  simp only [run, h]

/-- A concrete witness environment in which every pipeline stage
succeeds. -/
def wEnv : Env :=
  { resample := fun arr _ _ => arr
    decode_audio := fun a => some a
    extract_fbank := fun _ => [[1]]
    std_mean := fun _ => (1, 0)
    gcmvn_mean := [0]
    gcmvn_std := [1]
    translate := fun _ => some (["bonjour"], [[7]])
    synthesize := fun _ _ _ =>
      some { audio_wavs := [[[[0]]]], sample_rate := 16000 }
    tmpName := "tmp0001.wav" }

theorem run_unknown_language_witness :
    dictLookup LANGUAGE_NAME_TO_CODE "Esperanto" = none ∧
    run wEnv wFsA "input.wav" "Esperanto" =
      .error (.unknownLanguage, wFsA) := by
  have h : dictLookup LANGUAGE_NAME_TO_CODE "Esperanto" = none := by decide
  exact ⟨h, run_unknown_language wEnv wFsA "input.wav" "Esperanto" h⟩

/-- C7: on a malformed or empty input audio file, `run` fails with the
decode failure raised while loading the audio, and the file system is
returned exactly as it was: no temporary output file has been created and
nothing was written. -/
theorem run_malformed_input (env : Env) (fs : FS)
    (input_audio_path target_language code : String)
    (hl : dictLookup LANGUAGE_NAME_TO_CODE target_language = some code)
    (hm : fs input_audio_path = some FileContent.malformed) :
    run env fs input_audio_path target_language = .error (.loadError, fs) := by
  simp only [run, hl, preprocess_audio, hm]

/-- Witness file system holding a malformed (undecodable) file. -/
def wFsM : FS :=
  fun p => if p = "bad.wav" then some FileContent.malformed else none

theorem run_malformed_input_witness :
    dictLookup LANGUAGE_NAME_TO_CODE "French" = some "fra" ∧
    wFsM "bad.wav" = some FileContent.malformed ∧
    run wEnv wFsM "bad.wav" "French" = .error (.loadError, wFsM) := by
  have hl : dictLookup LANGUAGE_NAME_TO_CODE "French" = some "fra" := by
    decide
  have hm : wFsM "bad.wav" = some FileContent.malformed := rfl
  exact ⟨hl, hm, run_malformed_input wEnv wFsM "bad.wav" "French" "fra" hl hm⟩

/-- C9: whenever `run` fails after preprocessing succeeded (decode,
translation, synthesis, or output indexing), the in-place overwrite done
by `preprocess_audio` is not rolled back: in the file system reported by
the failure, the input path holds the resampled (and possibly truncated)
audio written by preprocessing, not the original upload. -/
theorem run_failure_keeps_preprocessed (env : Env) (fs : FS)
    (input_audio_path target_language code : String) (a : AudioData)
    (e : RunError) (fs' : FS)
    (hl : dictLookup LANGUAGE_NAME_TO_CODE target_language = some code)
    (ha : fs input_audio_path = some (FileContent.wave a))
    (htmp : env.tmpName ≠ input_audio_path)
    (hrun : run env fs input_audio_path target_language = .error (e, fs')) :
    fs' input_audio_path =
      some (FileContent.wave (preprocessCore env.resample a).saved) := by
  simp only [run, hl, preprocess_audio, ha, FS.update_same] at hrun
  have hkeep := runPipeline_error_keeps env code
    ((preprocessCore env.resample a).saved) _ e fs' input_audio_path
    htmp.symm hrun
  rw [hkeep, FS.update_same]

/-- Witness environment whose byte decoder always fails. -/
def wEnvD : Env := { wEnv with decode_audio := fun _ => none }

/-- The file system after the witness run's preprocessing step. -/
def wFsD1 : FS :=
  wFsA.update "input.wav" (FileContent.wave
    { waveform := wAudio.waveform, sampleRate := AUDIO_SAMPLE_RATE })

theorem run_failure_keeps_preprocessed_witness :
    dictLookup LANGUAGE_NAME_TO_CODE "French" = some "fra" ∧
    wFsA "input.wav" = some (FileContent.wave wAudio) ∧
    wEnvD.tmpName ≠ "input.wav" ∧
    run wEnvD wFsA "input.wav" "French" = .error (.decodeError, wFsD1) ∧
    wFsD1 "input.wav" =
      some (FileContent.wave (preprocessCore wEnvD.resample wAudio).saved) := by
  have hl : dictLookup LANGUAGE_NAME_TO_CODE "French" = some "fra" := by
    decide
  have ha : wFsA "input.wav" = some (FileContent.wave wAudio) := rfl
  have htmp : wEnvD.tmpName ≠ "input.wav" := by decide
  have hrun : run wEnvD wFsA "input.wav" "French" =
      .error (.decodeError, wFsD1) := rfl
  exact ⟨hl, ha, htmp, hrun,
    run_failure_keeps_preprocessed wEnvD wFsA "input.wav" "French" "fra"
      wAudio .decodeError wFsD1 hl ha htmp hrun⟩

theorem runPipeline_translate_agree (env : Env)
    (t' : TranslatorCall → Option (List String × SpeechUnits))
    (code : String) (saved : AudioData) (fs1 : FS)
    (hagree : ∀ c : TranslatorCall,
      c.task = "S2ST" →
      c.src_lang = none →
      c.text_generation_opts = { beam_size := 5, soft_max_seq_len := none } →
      c.unit_generation_opts =
        { beam_size := 5, soft_max_seq_len := some (25, 50) } →
      c.unit_generation_ngram_filtering = false →
      c.duration_factor = 1 →
      env.translate c = t' c) :
    runPipeline { env with translate := t' } code saved fs1 =
      runPipeline env code saved fs1 := by
  unfold runPipeline
  dsimp only
  cases hd : env.decode_audio saved with
  | none => rfl
  | some example0 =>
    dsimp only
    have hcall : translatorCallOf { env with translate := t' } code example0 =
        translatorCallOf env code example0 := rfl
    have hbatch : pipelineBatch { env with translate := t' } example0 =
        pipelineBatch env example0 := rfl
    rw [hcall, hbatch,
      ← hagree (translatorCallOf env code example0) rfl rfl rfl rfl rfl rfl]

/-- C4: every call of `run` invokes the external translator with exactly
the fixed generation settings of app.py: beam size 5 for both generators,
no maximum-length constraint for text, soft length window (25, 50) for
units, n-gram filtering disabled, duration factor 1, task "S2ST", and
source language `None`. Formally: replacing the translator by any function
that agrees with it on precisely the calls carrying those settings never
changes the behavior of `run` — so `run` only ever issues such calls. -/
theorem run_translator_fixed_opts (env : Env)
    (t' : TranslatorCall → Option (List String × SpeechUnits))
    (fs : FS) (input_audio_path target_language : String)
    (hagree : ∀ c : TranslatorCall,
      c.task = "S2ST" →
      c.src_lang = none →
      c.text_generation_opts = { beam_size := 5, soft_max_seq_len := none } →
      c.unit_generation_opts =
        { beam_size := 5, soft_max_seq_len := some (25, 50) } →
      c.unit_generation_ngram_filtering = false →
      c.duration_factor = 1 →
      env.translate c = t' c) :
    run env fs input_audio_path target_language =
      run { env with translate := t' } fs input_audio_path target_language := by
  unfold run
  cases hl : dictLookup LANGUAGE_NAME_TO_CODE target_language with
  | none => rfl
  | some code =>
    dsimp only
    cases hp : preprocess_audio env.resample fs input_audio_path with
    | none => rfl
    | some p =>
      obtain ⟨fs1, warned⟩ := p
      dsimp only
      cases hf : fs1 input_audio_path with
      | none => rfl
      | some fc =>
        cases fc with
        | malformed => rfl
        | wave saved =>
          exact (runPipeline_translate_agree env t' code saved fs1 hagree).symm

/-- A translator variant that agrees with the witness translator exactly
on speech-to-speech calls. -/
def wAltTranslate : TranslatorCall → Option (List String × SpeechUnits) :=
  fun c => if c.task = "S2ST" then wEnv.translate c else none

theorem run_translator_fixed_opts_witness :
    (∀ c : TranslatorCall,
      c.task = "S2ST" →
      c.src_lang = none →
      c.text_generation_opts = { beam_size := 5, soft_max_seq_len := none } →
      c.unit_generation_opts =
        { beam_size := 5, soft_max_seq_len := some (25, 50) } →
      c.unit_generation_ngram_filtering = false →
      c.duration_factor = 1 →
      wEnv.translate c = wAltTranslate c) ∧
    run wEnv wFsA "input.wav" "French" =
      run { wEnv with translate := wAltTranslate } wFsA "input.wav" "French" := by
  have hagree : ∀ c : TranslatorCall,
      c.task = "S2ST" →
      c.src_lang = none →
      c.text_generation_opts = { beam_size := 5, soft_max_seq_len := none } →
      c.unit_generation_opts =
        { beam_size := 5, soft_max_seq_len := some (25, 50) } →
      c.unit_generation_ngram_filtering = false →
      c.duration_factor = 1 →
      wEnv.translate c = wAltTranslate c := by
    intro c h1 _ _ _ _ _
    simp [wAltTranslate, h1]
  exact ⟨hagree,
    run_translator_fixed_opts wEnv wAltTranslate wFsA "input.wav" "French"
      hagree⟩

/-- C8: for a fixed input file and target language, `run` is deterministic
in its translated text: when a call succeeds, calling `run` again on the
resulting state (same input path, same language, fixed model functions)
succeeds with the same translated text and the same output name; moreover
the written output file carries the sample rate reported by the
synthesizer (here: any rate `R` the synthesizer reports). The resampler is
assumed to be the identity at equal source and target rates, as
`torchaudio.functional.resample` is. -/
theorem run_deterministic_text (env : Env) (fs : FS)
    (input_audio_path target_language : String)
    (fs1 : FS) (out_path text : String) (R : Nat)
    (hres : ∀ arr sr, env.resample arr sr sr = arr)
    (htmp : env.tmpName ≠ input_audio_path)
    (hR : ∀ u l p sp, env.synthesize u l p = some sp → sp.sample_rate = R)
    (h1 : run env fs input_audio_path target_language =
      .ok (fs1, out_path, text)) :
    (∃ fs2, run env fs1 input_audio_path target_language =
      .ok (fs2, out_path, text)) ∧
    (∃ w, fs1 env.tmpName = some (FileContent.wave
      { waveform := w, sampleRate := R })) := by
  unfold run at h1
  cases hl : dictLookup LANGUAGE_NAME_TO_CODE target_language with
  | none => rw [hl] at h1; exact absurd h1 (by simp)
  | some code =>
    rw [hl] at h1
    dsimp only at h1
    cases hf : fs input_audio_path with
    | none =>
      simp only [ preprocess_audio, hf] at h1
      exact absurd h1 (by simp)
    | some fc =>
      cases fc with
      | malformed =>
        simp only [ preprocess_audio, hf] at h1
        exact absurd h1 (by simp)
      | wave a =>
        simp only [ preprocess_audio, hf, FS.update_same] at h1
        obtain ⟨ex0, text_output, units, sp0, wav, hd, ht, hs, hw, htx, hn,
          hfs1, hall⟩ := runPipeline_ok_shape env code
            ((preprocessCore env.resample a).saved) _ fs1 out_path text h1
        subst hn
        have hsr : sp0.sample_rate = R := hR units code _ sp0 hs
        have hfs1path : fs1 input_audio_path =
            some (FileContent.wave (preprocessCore env.resample a).saved) := by
          rw [hfs1, FS.update_other _ _ _ _ htmp.symm, FS.update_same]
        constructor
        · refine ⟨(fs1.update input_audio_path (FileContent.wave
            (preprocessCore env.resample a).saved)).update env.tmpName
            (FileContent.wave
              { waveform := wav, sampleRate := sp0.sample_rate }), ?_⟩
          simp only [run, hl, preprocess_audio, hfs1path,
            preprocessCore_idem env.resample a hres, FS.update_same]
          exact hall _
        · exact ⟨wav, by rw [hfs1, FS.update_same, hsr]⟩

/-- The file system produced by the witness run: the input file
preprocessed in place, plus the temporary output file. -/
def wFsRun1 : FS :=
  (wFsA.update "input.wav" (FileContent.wave
    { waveform := wAudio.waveform, sampleRate := AUDIO_SAMPLE_RATE })).update
    "tmp0001.wav" (FileContent.wave { waveform := [[0]], sampleRate := 16000 })

theorem run_deterministic_text_witness :
    (∀ arr sr, wEnv.resample arr sr sr = arr) ∧
    wEnv.tmpName ≠ "input.wav" ∧
    (∀ u l p sp, wEnv.synthesize u l p = some sp → sp.sample_rate = 16000) ∧
    run wEnv wFsA "input.wav" "French" =
      .ok (wFsRun1, "tmp0001.wav", "bonjour") ∧
    ((∃ fs2, run wEnv wFsRun1 "input.wav" "French" =
      .ok (fs2, "tmp0001.wav", "bonjour")) ∧
     (∃ w, wFsRun1 wEnv.tmpName = some (FileContent.wave
       { waveform := w, sampleRate := 16000 }))) := by
  have hres : ∀ arr sr, wEnv.resample arr sr sr = arr := fun arr sr => rfl
  have htmp : wEnv.tmpName ≠ "input.wav" := by decide
  have hR : ∀ u l p sp, wEnv.synthesize u l p = some sp →
      sp.sample_rate = 16000 := by
    intro u l p sp h
    injection h with h2
    rw [← h2]
  have h1 : run wEnv wFsA "input.wav" "French" =
      .ok (wFsRun1, "tmp0001.wav", "bonjour") := rfl
  exact ⟨hres, htmp, hR, h1,
    run_deterministic_text wEnv wFsA "input.wav" "French" wFsRun1
      "tmp0001.wav" "bonjour" 16000 hres htmp hR h1⟩
